import Mathlib

/-!
# Verification of the hex coordinate engine of `more-space`

Shallow embedding of the hex coordinate engine and windowed-grid manager
implemented in `src/www/hex-grid.ts` (the current evolution, the first copy in
that file, which owns its state in the `app` object).

Modelling conventions:
* JavaScript `number` arithmetic is idealised as real arithmetic (`ℝ`);
  `Math.sqrt` is `Real.sqrt` and `Math.round` (round half towards `+∞`) is
  Mathlib's `round` (`⌊x + 1/2⌋`, the same tie-breaking rule).
* JavaScript 32-bit bitwise operators (`<<`, `>>`, `^` in `zigzag`) are
  modelled on `ℤ` with an explicit wrap `toInt32` into `[-2^31, 2^31)`;
  `BigInt` operators (`<<`, `|` in `packId`) are exact, so `qq << 32n` is
  multiplication by `2 ^ 32` and `|` is two's-complement `Int.lor`.
* Fallible calls (the wasm `hex_window` import together with `JSON.parse`)
  are passed in as an `Except String` value; a thrown exception is the
  `.error` case.  Babylon scene objects are reduced to the fields the grid
  manager reads or writes (`metadata.radius`, `position`, `setEnabled`).
* The string cell key `` `${x},${y},${z}` `` is modelled as the triple
  `(x, y, z)` and the decimal string produced by `packId(...).toString()` as
  the packed integer itself; both transcriptions are injective, so equality
  and distinctness of keys/ids are preserved.
-/

namespace MoreSpace

/-- `HEX_SIZE` from `hex-grid.ts` (hex edge size `S`). -/
noncomputable def HEX_SIZE : ℝ := 2.3

/-- `DEFAULT_RADIUS` from `hex-grid.ts`. -/
def DEFAULT_RADIUS : ℤ := 3

/-! ## CellIdentity: `zigzag` and `packId` -/

/-- JavaScript `ToInt32`: wrap an integer into `[-2^31, 2^31)`.  Every operand
of a JS 32-bit bitwise operator is coerced through this function. -/
def toInt32 (v : ℤ) : ℤ := (v + 2 ^ 31) % 2 ^ 32 - 2 ^ 31

/-- `zigzag(v) = (v << 1) ^ (v >> 31)` from `hex-grid.ts`: `v << 1` is
`toInt32 (toInt32 v * 2)`, `v >> 31` is the arithmetic right shift of the
32-bit value, and `^` is bitwise xor (its operands here are already 32-bit,
so no further wrap is needed). -/
def zigzag (v : ℤ) : ℤ := Int.xor (toInt32 (toInt32 v * 2)) (toInt32 v >>> (31 : ℤ))

/-- `packId(q, r) = ((BigInt(zigzag(q)) << 32n) | BigInt(zigzag(r))).toString()`
from `hex-grid.ts`, modelled as the packed integer (`BigInt` shift of a signed
value is exact multiplication by `2 ^ 32`, `|` is two's-complement or). -/
def packId (q r : ℤ) : ℤ := Int.lor (zigzag q * 2 ^ 32) (zigzag r)

/-! ## CoordinateTransform -/

/-- `axialToWorld(q, r)` from `hex-grid.ts`: pointy-top axial projection to a
Babylon `Vector3` `(x, 0, z)` with `x = S·(√3·q + (√3/2)·r)`, `z = S·1.5·r`. -/
noncomputable def axialToWorld (q r : ℝ) : ℝ × ℝ × ℝ :=
  (HEX_SIZE * (Real.sqrt 3 * q + Real.sqrt 3 / 2 * r), 0, HEX_SIZE * (1.5 * r))

/-- `cubeRound(x, y, z)` from `hex-grid.ts`: round each cube coordinate
independently, then recompute the component with the largest rounding error
from the other two (`x` wins only a strict two-way comparison, then `y`
against `z`, else `z`). -/
noncomputable def cubeRound (x y z : ℝ) : ℤ × ℤ × ℤ :=
  let rx := round x
  let ry := round y
  let rz := round z
  let x_diff := |(rx : ℝ) - x|
  let y_diff := |(ry : ℝ) - y|
  let z_diff := |(rz : ℝ) - z|
  if x_diff > y_diff ∧ x_diff > z_diff then (-ry - rz, ry, rz)
  else if y_diff > z_diff then (rx, -rx - rz, rz)
  else (rx, ry, -rx - ry)

/-- The `HexCell` record built by `worldToCell` in `hex-grid.ts`.  `key` is the
cube-coordinate triple (source: the string `"x,y,z"`), `id` the packed integer
(source: its decimal string). -/
structure HexCell where
  id : ℤ
  key : ℤ × ℤ × ℤ
  x : ℤ
  y : ℤ
  z : ℤ
  q : ℤ
  r : ℤ
  distance : ℤ
  deriving Repr, DecidableEq

/-- `worldToCell(pos)` from `hex-grid.ts` (declared return type
`HexCell | null`, hence `Option`): inverse pointy-top projection to fractional
cube coordinates, `cubeRound`, then assemble the cell record.
`Math.max(a, b, c)` is the left fold `max (max a b) c`. -/
noncomputable def worldToCell (pos : ℝ × ℝ × ℝ) : Option HexCell :=
  let q := (Real.sqrt 3 / 3 * pos.1 - 1 / 3 * pos.2.2) / HEX_SIZE
  let r := 2 / 3 * pos.2.2 / HEX_SIZE
  let x := q
  let z := r
  let y := -x - z
  let rounded := cubeRound x y z
  some
    { id := packId rounded.1 rounded.2.2
      key := rounded
      x := rounded.1
      y := rounded.2.1
      z := rounded.2.2
      q := rounded.1
      r := rounded.2.2
      distance := max (max |rounded.1| |rounded.2.1|) |rounded.2.2| }

/-- The cell record `worldToCell` produces at the exact centre of the cell with
axial coordinates `(q, r)` (derived form, proved in
`worldToCell_axialToWorld`). -/
def hexCellOf (q r : ℤ) : HexCell :=
  { id := packId q r
    key := (q, -q - r, r)
    x := q
    y := -q - r
    z := r
    q := q
    r := r
    distance := max (max |q| |(-q - r)|) |r| }

/-- Modelled from the spec: hex (Chebyshev-on-cube) distance between the cells
with axial coordinates `a` and `b` (§3 **Cell**, GLOSSARY); the third cube
coordinate of `(q, r)` is `-q - r`.  Not in `src/` (the Rust generation module
is external); used to judge the `distance` field computed by `worldToCell`. -/
def hexDist (a b : ℤ × ℤ) : ℤ :=
  max (max |a.1 - b.1| |(-a.1 - a.2) - (-b.1 - b.2)|) |a.2 - b.2|

/-! ## PanLimiter -/

/-- Babylon `Vector3.length()`. -/
noncomputable def vlen3 (v : ℝ × ℝ × ℝ) : ℝ :=
  Real.sqrt (v.1 ^ 2 + v.2.1 ^ 2 + v.2.2 ^ 2)

/-- Babylon `Vector3.scaleInPlace(c)` (functionally). -/
def scale3 (c : ℝ) (v : ℝ × ℝ × ℝ) : ℝ × ℝ × ℝ :=
  (c * v.1, c * v.2.1, c * v.2.2)

/-- The clamp applied to `cam.target` in `clampTarget` and `handleKeyPan` in
`hex-grid.ts`: if `|target| > maxPanRange`, scale by `maxPanRange / |target|`,
else leave unchanged. -/
noncomputable def clampTarget (target : ℝ × ℝ × ℝ) (maxPanRange : ℝ) : ℝ × ℝ × ℝ :=
  if vlen3 target > maxPanRange then scale3 (maxPanRange / vlen3 target) target
  else target

/-- The pan-range computation at the end of `renderGrid` in `hex-grid.ts`:
`maxExtent = Math.max(farAxial.length(), farDiag.length(), HEX_SIZE * 2)` with
`farAxial = axialToWorld(radius, 0)`, `farDiag = axialToWorld(radius, -radius)`,
and `maxPanRange = maxExtent * 0.8`. -/
noncomputable def computeMaxPanRange (radius : ℤ) : ℝ :=
  max (max (vlen3 (axialToWorld (radius : ℝ) 0)) (vlen3 (axialToWorld (radius : ℝ) (-(radius : ℝ)))))
    (HEX_SIZE * 2) * 0.8

/-! ## WindowManager -/

/-- The state the grid manager keeps on the boundary mesh (`app.gridLines`):
its `metadata.radius` tag, its `position`, and whether it is enabled. -/
structure GridGeom where
  radius : ℤ
  position : ℝ × ℝ × ℝ
  enabled : Bool

/-- The geometry-cache decision of `renderGrid` in `hex-grid.ts`
(lines 501–534): if a mesh exists and its `metadata.radius` equals the
requested radius, reposition and re-enable it; otherwise dispose the old mesh
(when present) and build a new one tagged with the new radius.  Returns
`(mesh after the build, dispose call occurred, rebuild call occurred)`. -/
noncomputable def renderGridCache (gridLines : Option GridGeom) (radius : ℤ)
    (centerWorld : ℝ × ℝ × ℝ) : GridGeom × Bool × Bool :=
  match gridLines with
  | some g =>
    if g.radius = radius then ({ g with position := centerWorld, enabled := true }, false, false)
    else ({ radius := radius, position := centerWorld, enabled := true }, true, true)
  | none => ({ radius := radius, position := centerWorld, enabled := true }, false, true)

/-- The parsed `HexGrid` JSON payload returned by the wasm `hex_window` call
(the fields `renderGrid` reads: `radius` and the cell list, kept as axial
pairs). -/
structure HexGridData where
  radius : ℤ
  cells : List (ℤ × ℤ)

/-- The module-level mutable state of `hex-grid.ts` that `renderGrid` and
`setHover` touch. -/
structure AppState where
  currentCenter : Option (ℤ × ℤ)
  currentRadius : ℤ
  gridLines : Option GridGeom
  maxPanRange : ℝ
  infoText : String

/-- `renderGrid(centerQ, centerR, radius, s)` from `hex-grid.ts`.  The
`hex_window` call plus `JSON.parse` is the `gen` argument; the source wraps it
in no `try`/`catch`, so a thrown error aborts the function before any state
update and propagates to the caller (`.error` result).  On success the
geometry-cache decision runs, `maxPanRange` is recomputed and the info panel
text is replaced. -/
noncomputable def renderGridX (gen : Except String HexGridData) (st : AppState)
    (centerQ centerR radius : ℤ) : AppState × Option String :=
  match gen with
  | .error e => (st, some e)
  | .ok grid =>
    let centerWorld := axialToWorld (centerQ : ℝ) (centerR : ℝ)
    let built := renderGridCache st.gridLines radius centerWorld
    ({ st with
        gridLines := some { built.1 with position := centerWorld }
        maxPanRange := computeMaxPanRange grid.radius
        infoText :=
          "Center q" ++ toString centerQ ++ " r" ++ toString centerR ++ ", radius " ++
            toString radius ++ ", cells " ++ toString grid.cells.length },
      none)

/-- The recenter branch of `setHover` in `hex-grid.ts` (lines 202–208): when
the hovered cell differs from `currentCenter`, first assign `currentCenter`
and `currentRadius`, then call `renderGrid`; otherwise just re-enable the
existing mesh.  A `some` second component is an exception that escaped. -/
noncomputable def setHoverRecenterX (gen : Except String HexGridData) (st : AppState)
    (cell : HexCell) (radiusCap : ℤ) : AppState × Option String :=
  if st.currentCenter = some (cell.q, cell.r) then
    ({ st with gridLines := st.gridLines.map fun g => { g with enabled := true } }, none)
  else
    let st1 := { st with currentCenter := some (cell.q, cell.r), currentRadius := radiusCap }
    renderGridX gen st1 cell.q cell.r radiusCap

/-- The pointer-move resolution in `setupPointerHandling` in `hex-grid.ts`:
the ray/plane intersection is the `hit` argument (`none` when the ray misses
the plane); a hit is resolved with `worldToCell`, and only a `null` cell (or a
missed plane) yields the "no hover" state. -/
noncomputable def pointerResolve (hit : Option (ℝ × ℝ × ℝ)) : Option HexCell :=
  match hit with
  | none => none
  | some pos =>
    match worldToCell pos with
    | some cell => some cell
    | none => none

/-! ## Radius input -/

/-- JavaScript `parseInt(s, 10)`: skip leading whitespace, read an optional
sign, then the longest prefix of decimal digits; `none` models `NaN` (no
digits). -/
def parseIntDec (s : String) : Option ℤ :=
  let l := s.data.dropWhile fun c => c = ' ' ∨ c = '\t' ∨ c = '\n' ∨ c = '\r'
  let digitsVal : List Char → ℤ := fun ds =>
    ds.foldl (fun acc c => 10 * acc + ((c.toNat : ℤ) - ('0'.toNat : ℤ))) 0
  match l with
  | '-' :: rest =>
    let ds := rest.takeWhile Char.isDigit
    if ds.isEmpty then none else some (-(digitsVal ds))
  | '+' :: rest =>
    let ds := rest.takeWhile Char.isDigit
    if ds.isEmpty then none else some (digitsVal ds)
  | _ =>
    let ds := l.takeWhile Char.isDigit
    if ds.isEmpty then none else some (digitsVal ds)

/-- `parseRadiusCap()` from `hex-grid.ts`: `NaN` or a value below `1` falls
back to `DEFAULT_RADIUS`; otherwise `Math.max(1, parsed)`. -/
def parseRadiusCap (value : String) : ℤ :=
  match parseIntDec value with
  | none => DEFAULT_RADIUS
  | some parsed => if parsed < 1 then DEFAULT_RADIUS else max 1 parsed

/-- The module state right after `run()` in `hex-grid.ts`: no centre yet, the
default radius, no boundary mesh, `maxPanRange = 0`, idle info text. -/
noncomputable def initialState : AppState :=
  { currentCenter := none
    currentRadius := DEFAULT_RADIUS
    gridLines := none
    maxPanRange := 0
    infoText := "Hover a hex to see details." }

/-! ## Helper lemmas: 32-bit arithmetic -/

theorem ldiff_zero_left (n : ℕ) : Nat.ldiff 0 n = 0 := by
  apply Nat.eq_of_testBit_eq
  intro i
  simp [Nat.testBit_ldiff]

theorem shr31_of_nonneg (v : ℤ) (h1 : 0 ≤ v) (h2 : v < 2 ^ 31) : v >>> (31 : ℤ) = 0 := by
  obtain ⟨m, rfl⟩ := Int.eq_ofNat_of_zero_le h1
  have hm : m < 2 ^ 31 := by exact_mod_cast h2
  have h : (↑m : ℤ) >>> (31 : ℤ) = Int.ofNat (m >>> 31) := rfl
  rw [h, Nat.shiftRight_eq_div_pow, Nat.div_eq_of_lt hm]
  rfl

theorem shr31_of_neg (v : ℤ) (h1 : -(2 ^ 31) ≤ v) (h2 : v < 0) : v >>> (31 : ℤ) = -1 := by
  obtain ⟨m, rfl⟩ : ∃ m : ℕ, v = Int.negSucc m :=
    ⟨(-(v + 1)).toNat, by rw [Int.negSucc_eq]; omega⟩
  have hm : m < 2 ^ 31 := by
    rw [Int.negSucc_eq] at h1
    omega
  have h : (Int.negSucc m) >>> (31 : ℤ) = Int.negSucc (m >>> 31) := rfl
  rw [h, Nat.shiftRight_eq_div_pow, Nat.div_eq_of_lt hm]
  decide

theorem int_xor_zero_right (a : ℤ) : Int.xor a 0 = a := by
  cases a with
  | ofNat m =>
    show Int.ofNat (m ^^^ 0) = Int.ofNat m
    rw [Nat.xor_zero]
  | negSucc m =>
    show Int.negSucc (m ^^^ 0) = Int.negSucc m
    rw [Nat.xor_zero]

theorem int_xor_neg_one_right (a : ℤ) : Int.xor a (-1) = -a - 1 := by
  cases a with
  | ofNat m =>
    show Int.negSucc (m ^^^ 0) = -(↑m : ℤ) - 1
    rw [Nat.xor_zero, Int.negSucc_eq]
    ring
  | negSucc m =>
    show (Int.ofNat (m ^^^ 0) : ℤ) = -(Int.negSucc m) - 1
    rw [Nat.xor_zero, Int.negSucc_eq]
    show (↑m : ℤ) = _
    ring

theorem toInt32_of_bounds (v : ℤ) (h1 : -(2 ^ 31) ≤ v) (h2 : v < 2 ^ 31) : toInt32 v = v := by
  unfold toInt32; omega

/-- On `[-2^30, 2^30)` none of the 32-bit operations in `zigzag` overflow and
it computes the textbook zigzag map `0, -1, 1, -2, 2, … ↦ 0, 1, 2, 3, 4, …`. -/
theorem zigzag_of_bounds (v : ℤ) (h1 : -(2 ^ 30) ≤ v) (h2 : v < 2 ^ 30) :
    zigzag v = if v < 0 then -2 * v - 1 else 2 * v := by
  unfold zigzag
  rw [toInt32_of_bounds v (by omega) (by omega),
      toInt32_of_bounds (v * 2) (by omega) (by omega)]
  by_cases hv : v < 0
  · rw [shr31_of_neg v (by omega) hv, int_xor_neg_one_right, if_pos hv]
    ring
  · rw [shr31_of_nonneg v (by omega) (by omega), int_xor_zero_right, if_neg hv]
    ring

/-- Splitting a disjoint 32-bit pack of naturals is unambiguous. -/
theorem nat_pack_inj (a b a' b' : ℕ) (hb : b < 2 ^ 32) (hb' : b' < 2 ^ 32)
    (h : a <<< 32 ||| b = a' <<< 32 ||| b') : a = a' ∧ b = b' := by
  have hbit : ∀ i : ℕ, (a <<< 32 ||| b).testBit i = (a' <<< 32 ||| b').testBit i := by
    intro i; rw [h]
  constructor
  · apply Nat.eq_of_testBit_eq
    intro i
    have hi := hbit (i + 32)
    rw [Nat.testBit_or, Nat.testBit_or, Nat.testBit_shiftLeft, Nat.testBit_shiftLeft] at hi
    have hb32 : b.testBit (i + 32) = false :=
      Nat.testBit_lt_two_pow (lt_of_lt_of_le hb (Nat.pow_le_pow_right (by norm_num) (by omega)))
    have hb32' : b'.testBit (i + 32) = false :=
      Nat.testBit_lt_two_pow (lt_of_lt_of_le hb' (Nat.pow_le_pow_right (by norm_num) (by omega)))
    simpa [hb32, hb32', Nat.add_sub_cancel] using hi
  · apply Nat.eq_of_testBit_eq
    intro i
    by_cases hi32 : i < 32
    · have hi := hbit i
      rw [Nat.testBit_or, Nat.testBit_or, Nat.testBit_shiftLeft, Nat.testBit_shiftLeft] at hi
      simpa [show ¬(32 ≤ i) from by omega] using hi
    · have e1 : b.testBit i = false :=
        Nat.testBit_lt_two_pow (lt_of_lt_of_le hb (Nat.pow_le_pow_right (by norm_num) (by omega)))
      have e2 : b'.testBit i = false :=
        Nat.testBit_lt_two_pow (lt_of_lt_of_le hb' (Nat.pow_le_pow_right (by norm_num) (by omega)))
      rw [e1, e2]

theorem int_pack_eq (a b : ℕ) : Int.lor (↑a * 2 ^ 32) ↑b = ↑(a <<< 32 ||| b) := by
  have h : (↑a * 2 ^ 32 : ℤ) = ↑(a <<< 32) := by
    rw [Nat.shiftLeft_eq]
    push_cast
    ring
  rw [h]
  rfl

theorem packId_zero_min : packId 0 (-(2 ^ 31)) = -1 := by
  have h0 : zigzag 0 = 0 := by decide
  have h1 : zigzag (-(2 ^ 31)) = -1 := by decide
  unfold packId
  rw [h0, h1]
  norm_num
  show Int.lor 0 (-1) = -1
  have h : Int.lor 0 (-1) = Int.negSucc (Nat.ldiff 0 0) := rfl
  rw [h, ldiff_zero_left]
  decide

theorem packId_one_min : packId 1 (-(2 ^ 31)) = -1 := by
  have h0 : zigzag 1 = 2 := by decide
  have h1 : zigzag (-(2 ^ 31)) = -1 := by decide
  unfold packId
  rw [h0, h1]
  norm_num
  show Int.lor 8589934592 (-1) = -1
  have h : Int.lor 8589934592 (-1) = Int.negSucc (Nat.ldiff 0 8589934592) := rfl
  rw [h, ldiff_zero_left]
  decide

/-- C2 counterexample: over the full signed 32-bit range the encoding is NOT
injective.  JS `zigzag` overflows at `r = -2^31` (`(v << 1) ^ (v >> 31)`
wraps to `-1`), and BigInt `|` with a negative low half swamps the high half,
so every `q` collides at `r = -2^31`; here `(0, -2^31)` and `(1, -2^31)` get
the same id. -/
theorem C2_packId_collision :
    (((0 : ℤ), (-(2 ^ 31) : ℤ)) ≠ ((1 : ℤ), (-(2 ^ 31) : ℤ))) ∧
      packId 0 (-(2 ^ 31)) = packId 1 (-(2 ^ 31)) := by
  refine ⟨by decide, ?_⟩
  rw [packId_zero_min, packId_one_min]

/-- C2 (amended): the identifier encoding is injective on the range where the
32-bit `zigzag` does not overflow, i.e. for axial coordinates in
`[-2^30, 2^30)`: distinct pairs there get distinct `packId`s. -/
theorem C2_packId_inj_of_bounds (q1 r1 q2 r2 : ℤ)
    (hq1l : -(2 ^ 30) ≤ q1) (hq1u : q1 < 2 ^ 30)
    (hr1l : -(2 ^ 30) ≤ r1) (hr1u : r1 < 2 ^ 30)
    (hq2l : -(2 ^ 30) ≤ q2) (hq2u : q2 < 2 ^ 30)
    (hr2l : -(2 ^ 30) ≤ r2) (hr2u : r2 < 2 ^ 30)
    (hne : (q1, r1) ≠ (q2, r2)) : packId q1 r1 ≠ packId q2 r2 := by
  intro h
  apply hne
  have hzq1 := zigzag_of_bounds q1 hq1l hq1u
  have hzr1 := zigzag_of_bounds r1 hr1l hr1u
  have hzq2 := zigzag_of_bounds q2 hq2l hq2u
  have hzr2 := zigzag_of_bounds r2 hr2l hr2u
  have bq1 : 0 ≤ zigzag q1 ∧ zigzag q1 < 2 ^ 31 := by rw [hzq1]; split_ifs <;> omega
  have br1 : 0 ≤ zigzag r1 ∧ zigzag r1 < 2 ^ 31 := by rw [hzr1]; split_ifs <;> omega
  have bq2 : 0 ≤ zigzag q2 ∧ zigzag q2 < 2 ^ 31 := by rw [hzq2]; split_ifs <;> omega
  have br2 : 0 ≤ zigzag r2 ∧ zigzag r2 < 2 ^ 31 := by rw [hzr2]; split_ifs <;> omega
  obtain ⟨a1, ha1⟩ := Int.eq_ofNat_of_zero_le bq1.1
  obtain ⟨b1, hb1⟩ := Int.eq_ofNat_of_zero_le br1.1
  obtain ⟨a2, ha2⟩ := Int.eq_ofNat_of_zero_le bq2.1
  obtain ⟨b2, hb2⟩ := Int.eq_ofNat_of_zero_le br2.1
  have hB1 : b1 < 2 ^ 32 := by
    have h' := br1.2
    rw [hb1] at h'
    omega
  have hB2 : b2 < 2 ^ 32 := by
    have h' := br2.2
    rw [hb2] at h'
    omega
  unfold packId at h
  rw [ha1, hb1, ha2, hb2, int_pack_eq, int_pack_eq] at h
  have hnat : a1 <<< 32 ||| b1 = a2 <<< 32 ||| b2 := by exact_mod_cast h
  obtain ⟨hA, hB⟩ := nat_pack_inj a1 b1 a2 b2 hB1 hB2 hnat
  have hq : zigzag q1 = zigzag q2 := by rw [ha1, ha2, hA]
  have hr : zigzag r1 = zigzag r2 := by rw [hb1, hb2, hB]
  rw [hzq1, hzq2] at hq
  rw [hzr1, hzr2] at hr
  have eq : q1 = q2 := by split_ifs at hq <;> omega
  have er : r1 = r2 := by split_ifs at hr <;> omega
  rw [eq, er]

/-- C2 witness: `(5, -7)` and `(6, -7)` are in the amended range and receive
distinct identifiers. -/
theorem C2_packId_inj_of_bounds_witness :
    -(2 ^ 30) ≤ (5 : ℤ) ∧ (((5 : ℤ), (-7 : ℤ)) ≠ ((6 : ℤ), (-7 : ℤ))) ∧
      packId 5 (-7) ≠ packId 6 (-7) :=
  ⟨by decide, by decide,
    C2_packId_inj_of_bounds 5 (-7) 6 (-7) (by decide) (by decide) (by decide) (by decide)
      (by decide) (by decide) (by decide) (by decide) (by decide)⟩

/-! ## Helper lemmas: coordinate transforms -/

/-- `cubeRound` at exact integer inputs: all three rounding errors are `0`, so
the final `else` branch recomputes the third component from the first two. -/
theorem cubeRound_intCast (a b c : ℤ) :
    cubeRound (a : ℝ) (b : ℝ) (c : ℝ) = (a, b, -a - b) := by
  unfold cubeRound
  simp [round_intCast]

/-- `cubeRound` always returns a triple summing to zero: whichever branch is
taken recomputes one component as minus the sum of the other two. -/
theorem cubeRound_sum (x y z : ℝ) :
    (cubeRound x y z).1 + (cubeRound x y z).2.1 + (cubeRound x y z).2.2 = 0 := by
  simp only [cubeRound]
  split_ifs <;> simp <;> ring

/-- Round trip at exact cell centres: `worldToCell` inverts `axialToWorld`. -/
theorem worldToCell_axialToWorld (q r : ℤ) :
    worldToCell (axialToWorld (q : ℝ) (r : ℝ)) = some (hexCellOf q r) := by
  have hfq : (Real.sqrt 3 / 3 * (HEX_SIZE * (Real.sqrt 3 * (q : ℝ) + Real.sqrt 3 / 2 * (r : ℝ))) -
      1 / 3 * (HEX_SIZE * (1.5 * (r : ℝ)))) / HEX_SIZE = (q : ℝ) := by
    have hS : HEX_SIZE ≠ 0 := by unfold HEX_SIZE; norm_num
    field_simp
    ring_nf
    rw [Real.sq_sqrt (by norm_num : (0:ℝ) ≤ 3)]
    ring
  have hfr : 2 / 3 * (HEX_SIZE * (1.5 * (r : ℝ))) / HEX_SIZE = (r : ℝ) := by
    have hS : HEX_SIZE ≠ 0 := by unfold HEX_SIZE; norm_num
    field_simp
    ring
  simp only [worldToCell, axialToWorld]
  rw [hfq, hfr]
  rw [show -(q : ℝ) - (r : ℝ) = ((-q - r : ℤ) : ℝ) by push_cast; ring]
  rw [cubeRound_intCast q (-q - r) r]
  rw [show -q - (-q - r) = r from by ring]
  simp [hexCellOf]

/-- The `distance` field assembled by `worldToCell` equals the cube Chebyshev
distance of the resolved cell from the origin cell `(0, 0)`. -/
theorem cubeRound_distance_origin (a b c : ℝ) :
    max (max |(cubeRound a b c).1| |(cubeRound a b c).2.1|) |(cubeRound a b c).2.2| =
      hexDist ((cubeRound a b c).1, (cubeRound a b c).2.2) (0, 0) := by
  have hs := cubeRound_sum a b c
  rcases hC : cubeRound a b c with ⟨u, v, w⟩
  rw [hC] at hs
  simp only at hs
  have hv : v = -u - w := by omega
  subst hv
  simp [hexDist]

/-! ## C1: round trip -/

/-- C1 (confirmed): for every integer axial pair `(q, r)` (in particular any
pair bounded by any `B`), resolving the exact world-space centre produced by
`axialToWorld` returns exactly the cell with axial coordinates `(q, r)`. -/
theorem C1_roundtrip (B q r : ℤ) (hq : |q| ≤ B) (hr : |r| ≤ B) :
    worldToCell (axialToWorld (q : ℝ) (r : ℝ)) = some (hexCellOf q r) ∧
      (hexCellOf q r).q = q ∧ (hexCellOf q r).r = r :=
  ⟨worldToCell_axialToWorld q r, rfl, rfl⟩

/-- C1 witness at `B = 10`, `(q, r) = (2, -3)`. -/
theorem C1_roundtrip_witness :
    |(2 : ℤ)| ≤ 10 ∧ |(-3 : ℤ)| ≤ 10 ∧
      (worldToCell (axialToWorld ((2 : ℤ) : ℝ) ((-3 : ℤ) : ℝ)) = some (hexCellOf 2 (-3)) ∧
        (hexCellOf 2 (-3)).q = 2 ∧ (hexCellOf 2 (-3)).r = -3) :=
  ⟨by decide, by decide, C1_roundtrip 10 2 (-3) (by decide) (by decide)⟩

/-! ## C4: cubeRound branch order and cube invariant -/

/-- C4 (confirmed): `cubeRound` rounds each coordinate independently and then
recomputes exactly one component, chosen by the documented priority (`x` only
when its error strictly exceeds both others, else `y` when its error strictly
exceeds `z`'s, else `z`); and on an input with `fx + fy + fz = 0` the returned
integers sum to exactly `0` (the sum is in fact `0` for every input, see
`cubeRound_sum`). -/
theorem C4_cubeRound_priority (x y z : ℝ) :
    ((|(round x : ℝ) - x| > |(round y : ℝ) - y| ∧ |(round x : ℝ) - x| > |(round z : ℝ) - z|) →
        cubeRound x y z = (-round y - round z, round y, round z)) ∧
      (¬(|(round x : ℝ) - x| > |(round y : ℝ) - y| ∧ |(round x : ℝ) - x| > |(round z : ℝ) - z|) →
        |(round y : ℝ) - y| > |(round z : ℝ) - z| →
          cubeRound x y z = (round x, -round x - round z, round z)) ∧
      (¬(|(round x : ℝ) - x| > |(round y : ℝ) - y| ∧ |(round x : ℝ) - x| > |(round z : ℝ) - z|) →
        ¬(|(round y : ℝ) - y| > |(round z : ℝ) - z|) →
          cubeRound x y z = (round x, round y, -round x - round y)) ∧
      (x + y + z = 0 →
        (cubeRound x y z).1 + (cubeRound x y z).2.1 + (cubeRound x y z).2.2 = 0) := by
  refine ⟨?_, ?_, ?_, fun _ => cubeRound_sum x y z⟩
  · intro h
    simp only [cubeRound]
    rw [if_pos h]
  · intro h1 h2
    simp only [cubeRound]
    rw [if_neg h1, if_pos h2]
  · intro h1 h2
    simp only [cubeRound]
    rw [if_neg h1, if_neg h2]

/-- C4 witness at `(0, 0, 0)`: all errors are zero, the final branch fires and
the output sums to zero. -/
theorem C4_cubeRound_priority_witness :
    cubeRound 0 0 0 = (round (0 : ℝ), round (0 : ℝ), -round (0 : ℝ) - round (0 : ℝ)) ∧
      (cubeRound 0 0 0).1 + (cubeRound 0 0 0).2.1 + (cubeRound 0 0 0).2.2 = 0 :=
  ⟨(C4_cubeRound_priority 0 0 0).2.2.1 (by simp) (by simp),
    (C4_cubeRound_priority 0 0 0).2.2.2 (by norm_num)⟩

/-! ## C8: the distance field -/

/-- C8 counterexample: hovering the centre of cell `(3, 0)` while the window is
centred at `(2, 0)` recenters the window to `(3, 0)`; the cell's `distance`
field is `3` (its distance from the origin), whereas its hex distance from the
previous window centre `(2, 0)` is `1` and from the new centre `(3, 0)` is `0`. -/
theorem C8_distance_counterexample :
    worldToCell (axialToWorld ((3 : ℤ) : ℝ) ((0 : ℤ) : ℝ)) = some (hexCellOf 3 0) ∧
      (hexCellOf 3 0).distance = 3 ∧
      (setHoverRecenterX (Except.ok { radius := 3, cells := [] })
          { initialState with currentCenter := some (2, 0) } (hexCellOf 3 0) 3).1.currentCenter =
        some (3, 0) ∧
      hexDist (3, 0) (2, 0) = 1 ∧ hexDist (3, 0) (3, 0) = 0 ∧
      (3 : ℤ) ≠ 1 ∧ (3 : ℤ) ≠ 0 :=
  ⟨worldToCell_axialToWorld 3 0, by decide, rfl, by decide, by decide, by decide, by decide⟩

/-- C8 (amended): the `distance` field of every cell returned by `worldToCell`
equals the hex (Chebyshev-on-cube) distance of that cell from the grid origin
`(0, 0)` — not from the active window's centre (they agree only when the
centre is the origin). -/
theorem C8_distance_from_origin (pos : ℝ × ℝ × ℝ) (cell : HexCell)
    (h : worldToCell pos = some cell) : cell.distance = hexDist (cell.q, cell.r) (0, 0) := by
  simp only [worldToCell, Option.some.injEq] at h
  subst h
  exact cubeRound_distance_origin _ _ _

/-- C8 witness at the origin cell centre. -/
theorem C8_distance_from_origin_witness :
    worldToCell (axialToWorld ((0 : ℤ) : ℝ) ((0 : ℤ) : ℝ)) = some (hexCellOf 0 0) ∧
      (hexCellOf 0 0).distance = hexDist ((hexCellOf 0 0).q, (hexCellOf 0 0).r) (0, 0) :=
  ⟨worldToCell_axialToWorld 0 0,
    C8_distance_from_origin (axialToWorld ((0 : ℤ) : ℝ) ((0 : ℤ) : ℝ)) (hexCellOf 0 0)
      (worldToCell_axialToWorld 0 0)⟩

/-! ## C10: worldToCell is total -/

/-- C10 (confirmed): `worldToCell` never takes the `null` branch of its
declared `HexCell | null` type, so in the pointer handler the "no hover" state
can only come from the ray/plane intersection failing: the resolved hover is
`none` exactly when the ray misses the plane. -/
theorem C10_worldToCell_total (pos : ℝ × ℝ × ℝ) (hit : Option (ℝ × ℝ × ℝ)) :
    (worldToCell pos).isSome = true ∧ (pointerResolve hit).isNone = hit.isNone := by
  constructor
  · simp [worldToCell]
  · cases hit with
    | none => rfl
    | some p => simp [pointerResolve, worldToCell]

/-! ## C3: geometry cache decision -/

/-- C3 (confirmed): on a window (re)build, when geometry exists and the
requested radius equals its `metadata.radius`, the mesh is only repositioned
to the new centre and re-enabled — no dispose, no rebuild; when the radius
differs the old mesh is disposed and a new one is built; when no geometry
exists a new mesh is built without any dispose call. -/
theorem C3_cache_reuse (st : Option GridGeom) (radius : ℤ) (c : ℝ × ℝ × ℝ) :
    (∀ g, st = some g → g.radius = radius →
        renderGridCache st radius c = ({ g with position := c, enabled := true }, false, false)) ∧
      (∀ g, st = some g → g.radius ≠ radius →
        renderGridCache st radius c =
          ({ radius := radius, position := c, enabled := true }, true, true)) ∧
      (st = none →
        renderGridCache st radius c = ({ radius := radius, position := c, enabled := true }, false, true)) := by
  refine ⟨?_, ?_, ?_⟩
  · rintro g rfl hg
    simp [renderGridCache, hg]
  · rintro g rfl hg
    simp [renderGridCache, hg]
  · rintro rfl
    simp [renderGridCache]

/-- C3 witness: two consecutive builds at radius `3` but a new centre reuse
the mesh (no dispose, no rebuild), repositioned and enabled. -/
theorem C3_cache_reuse_witness :
    renderGridCache (some { radius := 3, position := (0, 0, 0), enabled := false }) 3 (1, 2, 0) =
      ({ radius := 3, position := (1, 2, 0), enabled := true }, false, false) :=
  (C3_cache_reuse (some { radius := 3, position := (0, 0, 0), enabled := false }) 3 (1, 2, 0)).1
    { radius := 3, position := (0, 0, 0), enabled := false } rfl rfl

/-! ## C5: generation failure handling -/

/-- C5 (code bug): the current `renderGrid` wraps the `hex_window` call in no
`try`/`catch`, so a thrown generation error propagates out of the recenter
instead of being caught at the call site: no status message is written, the
previous state is kept only incidentally, and `currentCenter` has already been
reassigned before the throw (so re-hovering the same cell will not even retry
the build).  The earlier evolutions in this repository (`loadGrid`) do catch
and report exactly as the spec describes. -/
theorem C5_error_propagates :
    setHoverRecenterX (Except.error "wasm failure") initialState (hexCellOf 1 0) 3 =
      ({ initialState with currentCenter := some (1, 0), currentRadius := 3 },
        some "wasm failure") := by
  rfl

/-! ## Helper lemmas: pan limiter geometry -/

theorem hexsize_pos : (0 : ℝ) < HEX_SIZE := by unfold HEX_SIZE; norm_num

theorem sqrt3_lt_two : Real.sqrt 3 < 2 := by
  have h4 : Real.sqrt 4 = 2 := by
    rw [show (4:ℝ) = 2 ^ 2 by norm_num, Real.sqrt_sq (by norm_num)]
  have h := Real.sqrt_lt_sqrt (by norm_num : (0:ℝ) ≤ 3) (by norm_num : (3:ℝ) < 4)
  rwa [h4] at h

theorem one_le_sqrt3 : (1 : ℝ) ≤ Real.sqrt 3 := by
  have h := Real.sqrt_le_sqrt (by norm_num : (1:ℝ) ≤ 3)
  rwa [Real.sqrt_one] at h

/-- World distance of the cell at axial offset `(n, 0)` from the window
centre: `S·√3·n`. -/
theorem vlen3_axial_right (n : ℝ) (hn : 0 ≤ n) :
    vlen3 (axialToWorld n 0) = HEX_SIZE * Real.sqrt 3 * n := by
  unfold vlen3 axialToWorld
  simp only
  rw [show (HEX_SIZE * (Real.sqrt 3 * n + Real.sqrt 3 / 2 * 0)) ^ 2 + (0:ℝ) ^ 2 +
      (HEX_SIZE * (1.5 * 0)) ^ 2 = (HEX_SIZE * Real.sqrt 3 * n) ^ 2 from by ring]
  exact Real.sqrt_sq (mul_nonneg (mul_nonneg hexsize_pos.le (Real.sqrt_nonneg 3)) hn)

/-- World distance of the cell at axial offset `(n, -n)` from the window
centre: also `S·√3·n`. -/
theorem vlen3_axial_diag (n : ℝ) (hn : 0 ≤ n) :
    vlen3 (axialToWorld n (-n)) = HEX_SIZE * Real.sqrt 3 * n := by
  unfold vlen3 axialToWorld
  simp only
  have h3 : Real.sqrt 3 ^ 2 = 3 := Real.sq_sqrt (by norm_num)
  rw [show (HEX_SIZE * (Real.sqrt 3 * n + Real.sqrt 3 / 2 * -n)) ^ 2 + (0:ℝ) ^ 2 +
      (HEX_SIZE * (1.5 * -n)) ^ 2 = (HEX_SIZE * Real.sqrt 3 * n) ^ 2 from by
    linear_combination (HEX_SIZE ^ 2 * n ^ 2 * (-3/4 : ℝ)) * h3]
  exact Real.sqrt_sq (mul_nonneg (mul_nonneg hexsize_pos.le (Real.sqrt_nonneg 3)) hn)

theorem vlen3_nonneg (v : ℝ × ℝ × ℝ) : 0 ≤ vlen3 v := Real.sqrt_nonneg _

theorem vlen3_scale3 (c : ℝ) (v : ℝ × ℝ × ℝ) : vlen3 (scale3 c v) = |c| * vlen3 v := by
  unfold vlen3 scale3
  simp only
  rw [show (c * v.1) ^ 2 + (c * v.2.1) ^ 2 + (c * v.2.2) ^ 2 =
      c ^ 2 * (v.1 ^ 2 + v.2.1 ^ 2 + v.2.2 ^ 2) from by ring]
  rw [Real.sqrt_mul (sq_nonneg c), Real.sqrt_sq_eq_abs]

/-! ## C6: pan clamp radius -/

/-- C6 counterexample: at radius `1` the computed `maxPanRange` is NOT
`0.8` times the maximum of the two far-cell distances: both distances are
`S·√3 ≈ 3.98`, below the `HEX_SIZE * 2 = 4.6` floor the code also feeds into
`Math.max`, so the floor wins and `maxPanRange = 0.8·4.6`, not `0.8·S·√3`. -/
theorem C6_floor_counterexample :
    computeMaxPanRange 1 ≠
      0.8 * max (vlen3 (axialToWorld ((1 : ℤ) : ℝ) 0))
        (vlen3 (axialToWorld ((1 : ℤ) : ℝ) (-((1 : ℤ) : ℝ)))) := by
  have e1 := vlen3_axial_right ((1 : ℤ) : ℝ) (by norm_num)
  have e2 := vlen3_axial_diag ((1 : ℤ) : ℝ) (by norm_num)
  unfold computeMaxPanRange
  rw [e1, e2, max_self]
  have hlt : HEX_SIZE * Real.sqrt 3 * ((1 : ℤ) : ℝ) < HEX_SIZE * 2 := by
    push_cast
    nlinarith [hexsize_pos, sqrt3_lt_two]
  rw [max_eq_right hlt.le]
  intro h
  push_cast at h
  nlinarith [hexsize_pos, sqrt3_lt_two]

/-- C6 (amended): `maxPanRange` is the damping factor `0.8 < 1` times the
maximum of the two far-cell world distances *and the floor `HEX_SIZE * 2`*;
the floor is redundant — and the claim as stated holds — for every radius
`≥ 2` (the two distances are each `S·√3·radius ≥ 2·S·√3 > 2·S`). -/
theorem C6_maxPanRange_of_radius_ge_two (n : ℤ) (hn : 2 ≤ n) :
    computeMaxPanRange n =
      0.8 * max (vlen3 (axialToWorld (n : ℝ) 0)) (vlen3 (axialToWorld (n : ℝ) (-(n : ℝ)))) ∧
      (0.8 : ℝ) < 1 := by
  have hn' : (0 : ℝ) ≤ (n : ℝ) := by exact_mod_cast (by omega : (0:ℤ) ≤ n)
  have e1 := vlen3_axial_right (n : ℝ) hn'
  have e2 := vlen3_axial_diag (n : ℝ) hn'
  refine ⟨?_, by norm_num⟩
  unfold computeMaxPanRange
  rw [e1, e2, max_self]
  have h2n : (2 : ℝ) ≤ (n : ℝ) := by exact_mod_cast hn
  have hfloor : HEX_SIZE * 2 ≤ HEX_SIZE * Real.sqrt 3 * (n : ℝ) := by
    rw [mul_assoc]
    apply mul_le_mul_of_nonneg_left _ hexsize_pos.le
    nlinarith [mul_nonneg (sub_nonneg.mpr one_le_sqrt3) hn', h2n]
  rw [max_eq_left hfloor]
  ring

/-- C6 witness at radius `2`. -/
theorem C6_maxPanRange_witness :
    (2 : ℤ) ≤ 2 ∧
      (computeMaxPanRange 2 =
          0.8 * max (vlen3 (axialToWorld ((2 : ℤ) : ℝ) 0))
            (vlen3 (axialToWorld ((2 : ℤ) : ℝ) (-((2 : ℤ) : ℝ)))) ∧
        (0.8 : ℝ) < 1) :=
  ⟨le_refl 2, C6_maxPanRange_of_radius_ge_two 2 (le_refl 2)⟩

/-! ## C7: pan clamp -/

/-- C7 (confirmed): for every camera-target vector and nonnegative
`maxPanRange`, the clamped target has length at most `maxPanRange`; when the
unclamped length strictly exceeds `maxPanRange` the target is scaled by the
nonnegative factor `maxPanRange / |target|` (direction preserved) to exactly
length `maxPanRange`; otherwise it is returned unchanged. -/
theorem C7_clampTarget_spec (t : ℝ × ℝ × ℝ) (m : ℝ) (hm : 0 ≤ m) :
    vlen3 (clampTarget t m) ≤ m ∧
      (vlen3 t > m →
        clampTarget t m = scale3 (m / vlen3 t) t ∧ vlen3 (clampTarget t m) = m ∧
          0 ≤ m / vlen3 t) ∧
      (vlen3 t ≤ m → clampTarget t m = t) := by
  by_cases h : vlen3 t > m
  · have hpos : 0 < vlen3 t := lt_of_le_of_lt hm h
    have hcl : clampTarget t m = scale3 (m / vlen3 t) t := by unfold clampTarget; rw [if_pos h]
    have hlen : vlen3 (clampTarget t m) = m := by
      rw [hcl, vlen3_scale3, abs_of_nonneg (div_nonneg hm hpos.le), div_mul_cancel₀ m hpos.ne']
    exact ⟨hlen.le, fun _ => ⟨hcl, hlen, div_nonneg hm hpos.le⟩,
      fun hle => absurd h (not_lt.mpr hle)⟩
  · have ht : vlen3 t ≤ m := not_lt.mp h
    have hcl : clampTarget t m = t := by unfold clampTarget; rw [if_neg h]
    exact ⟨by rw [hcl]; exact ht, fun hgt => absurd hgt h, fun _ => hcl⟩

/-- C7 witness at target `(3, 0, 4)` and `maxPanRange = 2`. -/
theorem C7_clampTarget_spec_witness :
    (0 : ℝ) ≤ 2 ∧
      (vlen3 (clampTarget ((3 : ℝ), (0 : ℝ), (4 : ℝ)) 2) ≤ 2 ∧
        (vlen3 ((3 : ℝ), (0 : ℝ), (4 : ℝ)) > 2 →
          clampTarget ((3 : ℝ), (0 : ℝ), (4 : ℝ)) 2 =
              scale3 (2 / vlen3 ((3 : ℝ), (0 : ℝ), (4 : ℝ))) ((3 : ℝ), (0 : ℝ), (4 : ℝ)) ∧
            vlen3 (clampTarget ((3 : ℝ), (0 : ℝ), (4 : ℝ)) 2) = 2 ∧
            0 ≤ 2 / vlen3 ((3 : ℝ), (0 : ℝ), (4 : ℝ))) ∧
        (vlen3 ((3 : ℝ), (0 : ℝ), (4 : ℝ)) ≤ 2 →
          clampTarget ((3 : ℝ), (0 : ℝ), (4 : ℝ)) 2 = ((3 : ℝ), (0 : ℝ), (4 : ℝ)))) :=
  ⟨by norm_num, C7_clampTarget_spec ((3 : ℝ), (0 : ℝ), (4 : ℝ)) 2 (by norm_num)⟩

/-! ## C9: radius input recovery -/

/-- C9 counterexample: the input string `"0"` is below the minimum, but the
code recovers with `DEFAULT_RADIUS = 3`, not by clamping to the minimum valid
radius `1`. -/
theorem C9_not_clamped_to_one :
    parseRadiusCap "0" = 3 ∧ parseRadiusCap "0" ≠ 1 := by decide

/-- C9 (amended): radius resolution never fails and always returns an integer
`≥ 1`; for non-numeric input, or input parsing below the minimum `1`, it
recovers by returning `DEFAULT_RADIUS = 3` (not the minimum `1`). -/
theorem C9_parseRadius_amended (s : String) :
    1 ≤ parseRadiusCap s ∧
      (parseIntDec s = none → parseRadiusCap s = DEFAULT_RADIUS) ∧
      (∀ p, parseIntDec s = some p → p < 1 → parseRadiusCap s = DEFAULT_RADIUS) := by
  unfold parseRadiusCap
  cases hp : parseIntDec s with
  | none =>
    refine ⟨by norm_num [DEFAULT_RADIUS], fun _ => rfl, fun p hps => by simp at hps⟩
  | some p =>
    by_cases h1 : p < 1
    · refine ⟨?_, fun hn => by simp at hn, fun p' hp' hlt' => ?_⟩
      · show 1 ≤ if p < 1 then DEFAULT_RADIUS else 1 ⊔ p
        rw [if_pos h1]; norm_num [DEFAULT_RADIUS]
      · show (if p < 1 then DEFAULT_RADIUS else 1 ⊔ p) = DEFAULT_RADIUS
        rw [if_pos h1]
    · refine ⟨?_, fun hn => by simp at hn, fun p' hp' hlt' => ?_⟩
      · show 1 ≤ if p < 1 then DEFAULT_RADIUS else 1 ⊔ p
        rw [if_neg h1]; exact le_max_left 1 p
      · injection hp' with he
        omega

/-- C9 witness: the non-numeric input `"abc"` resolves to the default radius,
which is `≥ 1`. -/
theorem C9_parseRadius_amended_witness :
    1 ≤ parseRadiusCap "abc" ∧ parseRadiusCap "abc" = DEFAULT_RADIUS :=
  ⟨(C9_parseRadius_amended "abc").1, (C9_parseRadius_amended "abc").2.1 (by decide)⟩

end MoreSpace
